import Mathlib

/-!
Verification of the dnsdialer multi-resolver DNS resolution library.

The Go sources are shallowly embedded: pure record comparison becomes a Lean
function on lists, the stateful cache becomes explicit state passing over an
association-list store, and the concurrent strategy loops become functions of
the per-resolver outcomes in their arrival (or iteration) order.  Go `nil`
slices are modelled as `[]`, Go `error` values as `Option String`, instants
and durations as `Int` (seconds), and `uint32` TTLs as `Nat`.
-/

namespace Dnsdialer

/-- DNS record (recordtype.go): 16-bit type code, canonical text value,
unsigned 32-bit TTL in seconds. -/
structure Record where
  type : Nat
  value : String
  ttl : Nat
  deriving DecidableEq

/-- dns.TypeA numeric code. -/
def TypeA : Nat := 1

/-- dns.TypeAAAA numeric code. -/
def TypeAAAA : Nat := 28

/-- Map key for multiset record comparison (compare source file). -/
structure recordKey where
  value : String
  ttl : Nat
  deriving DecidableEq

/-- Key extraction used by `recordsEqual`: the record's value and TTL,
with the TTL normalised to zero when `ignoreTTL` is set. -/
def mkKey (ignoreTTL : Bool) (r : Record) : recordKey :=
  { value := r.value, ttl := if ignoreTTL then 0 else r.ttl }

/-- Go `aMap[key]++` on a frequency map modelled as a total function
(absent keys read as count 0, exactly as Go's two-valued map read). -/
def bumpKey (m : recordKey → Nat) (k : recordKey) : recordKey → Nat :=
  fun q => if q = k then m q + 1 else m q

/-- Go `aMap[key]--`. -/
def decKey (m : recordKey → Nat) (k : recordKey) : recordKey → Nat :=
  fun q => if q = k then m q - 1 else m q

/-- First loop of `recordsEqual`: build the frequency map of slice `a`. -/
def buildFreq (ignoreTTL : Bool) (a : List Record) : recordKey → Nat :=
  a.foldl (fun m r => bumpKey m (mkKey ignoreTTL r)) (fun _ => 0)

/-- Second loop of `recordsEqual`: for each record of `b`, look up its key;
absent-or-zero count fails, otherwise decrement.  Go's `!exists || count == 0`
is exactly `m k = 0` under the read-as-zero convention. -/
def checkFreq (ignoreTTL : Bool) : (recordKey → Nat) → List Record → Bool
  | _, [] => true
  | m, r :: rs =>
    if m (mkKey ignoreTTL r) = 0 then false
    else checkFreq ignoreTTL (decKey m (mkKey ignoreTTL r)) rs

/-- `recordsEqual` (compare source file): multiset equality of two record
slices, optionally blind to TTLs. -/
def recordsEqual (a b : List Record) (ignoreTTL : Bool) : Bool :=
  if a.length ≠ b.length then false
  else checkFreq ignoreTTL (buildFreq ignoreTTL a) b

lemma buildFreq_aux (ignoreTTL : Bool) (a : List Record) :
    ∀ (m : recordKey → Nat) (k : recordKey),
      (a.foldl (fun m r => bumpKey m (mkKey ignoreTTL r)) m) k
        = m k + (a.map (mkKey ignoreTTL)).count k := by
  induction a with
  | nil => simp
  | cons r rs ih =>
    intro m k
    rw [List.foldl_cons, ih]
    by_cases hk : k = mkKey ignoreTTL r
    · simp [bumpKey, hk, List.count_cons]
      omega
    · have hk2 : ¬ mkKey ignoreTTL r = k := fun h => hk h.symm
      simp [bumpKey, hk, hk2, List.count_cons]

lemma buildFreq_count (ignoreTTL : Bool) (a : List Record) (k : recordKey) :
    buildFreq ignoreTTL a k = (a.map (mkKey ignoreTTL)).count k := by
  have h := buildFreq_aux ignoreTTL a (fun _ => 0) k
  simpa [buildFreq] using h

lemma checkFreq_iff (ignoreTTL : Bool) (b : List Record) :
    ∀ (m : recordKey → Nat),
      checkFreq ignoreTTL m b = true
        ↔ ∀ k, (b.map (mkKey ignoreTTL)).count k ≤ m k := by
  induction b with
  | nil => intro m; simp [checkFreq]
  | cons r rs ih =>
    intro m
    by_cases h0 : m (mkKey ignoreTTL r) = 0
    · simp only [checkFreq, h0, if_true]
      constructor
      · intro h; cases h
      · intro h
        have hc := h (mkKey ignoreTTL r)
        simp [List.count_cons, h0] at hc
    · simp only [checkFreq, h0, if_false, ih]
      constructor
      · intro h k
        have hthis := h k
        by_cases hk : k = mkKey ignoreTTL r
        · simp [decKey, hk, List.count_cons] at hthis ⊢
          omega
        · have hk2 : ¬ mkKey ignoreTTL r = k := fun h2 => hk h2.symm
          simp [decKey, hk, hk2, List.count_cons] at hthis ⊢
          omega
      · intro h k
        have hthis := h k
        by_cases hk : k = mkKey ignoreTTL r
        · simp [decKey, hk, List.count_cons] at hthis ⊢
          omega
        · have hk2 : ¬ mkKey ignoreTTL r = k := fun h2 => hk h2.symm
          simp [decKey, hk, hk2, List.count_cons] at hthis ⊢
          omega

/-- **C3.** `recordsEqual a b ignoreTTL` holds exactly when the multisets of
`(value, ttl-or-zero)` keys of the two lists coincide (TTL normalised to zero
when `ignoreTTL` is set).  Multiset equality is order-independent and
duplicate-sensitive, as the claim states. -/
theorem recordsEqual_iff_multiset_eq (a b : List Record) (ignoreTTL : Bool) :
    recordsEqual a b ignoreTTL = true
      ↔ ((a.map (mkKey ignoreTTL) : List recordKey) : Multiset recordKey)
          = ((b.map (mkKey ignoreTTL) : List recordKey) : Multiset recordKey) := by
  constructor
  · intro h
    unfold recordsEqual at h
    by_cases hlen : a.length = b.length
    · simp only [hlen, ne_eq, not_true_eq_false, if_false] at h
      have hcnt : ∀ k, (b.map (mkKey ignoreTTL)).count k
          ≤ (a.map (mkKey ignoreTTL)).count k := by
        intro k
        have := (checkFreq_iff ignoreTTL b (buildFreq ignoreTTL a)).mp h k
        rwa [buildFreq_count] at this
      have hle : ((b.map (mkKey ignoreTTL) : List recordKey) : Multiset recordKey)
          ≤ ((a.map (mkKey ignoreTTL) : List recordKey) : Multiset recordKey) := by
        rw [Multiset.le_iff_count]
        intro k
        simpa [Multiset.coe_count] using hcnt k
      have hcard : Multiset.card
            ((a.map (mkKey ignoreTTL) : List recordKey) : Multiset recordKey)
          ≤ Multiset.card
            ((b.map (mkKey ignoreTTL) : List recordKey) : Multiset recordKey) := by
        simp [hlen]
      exact (Multiset.eq_of_le_of_card_le hle hcard).symm
    · simp [hlen] at h
  · intro h
    have hcnt : ∀ k, (a.map (mkKey ignoreTTL)).count k
        = (b.map (mkKey ignoreTTL)).count k := by
      intro k
      have := congrArg (Multiset.count k) h
      simpa [Multiset.coe_count] using this
    have hlen : a.length = b.length := by
      have := congrArg Multiset.card h
      simpa using this
    unfold recordsEqual
    simp only [hlen, ne_eq, not_true_eq_false, if_false]
    rw [checkFreq_iff]
    intro k
    rw [buildFreq_count, hcnt k]

/-! ### Compare strategy -/

/-- The baseline/allMatch loop of `Compare.ResolveType`, over the successful
responses in map-iteration order.  `first == nil` compares against the Go nil
slice, modelled as `[]`; a mismatch sets `allMatch = false` and breaks. -/
def compareScan (ignoreTTL : Bool) :
    List (List Record) → List Record → Bool → List Record × Bool
  | [], first, allMatch => (first, allMatch)
  | records :: rest, first, allMatch =>
    if first = [] then compareScan ignoreTTL rest records allMatch
    else if recordsEqual first records ignoreTTL then
      compareScan ignoreTTL rest first allMatch
    else (first, false)

/-- `Compare.ResolveType`: `outcomes` lists each resolver's result in
iteration order (`none` = error, `some rs` = success with records `rs`,
where `[]` models a Go nil slice).  Returns the picked records and the Go
error (always nil). -/
def compareResolveType (ignoreTTL : Bool)
    (outcomes : List (Option (List Record))) : List Record × Option String :=
  let results := outcomes.filterMap id
  ((compareScan ignoreTTL results [] true).1, none)

lemma compareScan_fst_of_ne (ignoreTTL : Bool) (rest : List (List Record)) :
    ∀ (first : List Record) (allMatch : Bool), first ≠ [] →
      (compareScan ignoreTTL rest first allMatch).1 = first := by
  induction rest with
  | nil => intro first allMatch h; simp [compareScan]
  | cons records rs ih =>
    intro first allMatch h
    simp only [compareScan, h, if_false]
    by_cases he : recordsEqual first records ignoreTTL
    · simp [he, ih first allMatch h]
    · simp [he]

lemma compareScan_fst (ignoreTTL : Bool) (results : List (List Record)) :
    (compareScan ignoreTTL results [] true).1
      = ((results.find? (fun l => !l.isEmpty)).getD []) := by
  induction results with
  | nil => simp [compareScan]
  | cons records rs ih =>
    by_cases h : records = []
    · subst h
      simpa [compareScan, List.find?] using ih
    · have hne : (!records.isEmpty) = true := by
        simp [List.isEmpty_iff, h]
      simp [compareScan, h, List.find?, hne, compareScan_fst_of_ne ignoreTTL rs records true h]

/-- **C1 (counterexample).** With two successful resolvers, the first of which
returned nil records, `Compare.ResolveType` returns the second resolver's
records rather than the iteration-first successful resolver's (nil) records,
so the claim as stated fails at this input. -/
theorem compare_first_success_counterexample :
    compareResolveType false
        [some [], some [{ type := 1, value := "1.1.1.1", ttl := 300 }]]
      = ([{ type := 1, value := "1.1.1.1", ttl := 300 }], none)
    ∧ ([{ type := 1, value := "1.1.1.1", ttl := 300 }] : List Record) ≠ [] := by
  constructor
  · rfl
  · intro h; cases h

/-- **C1 (amended).** `Compare.ResolveType` returns, with a nil error, the
records of the iteration-first successful resolver whose records are non-nil
(nil when no resolver succeeded or every successful response was nil). -/
theorem compare_returns_first_nonnil_success (ignoreTTL : Bool)
    (outcomes : List (Option (List Record))) :
    compareResolveType ignoreTTL outcomes
      = ((((outcomes.filterMap id).find? (fun l => !l.isEmpty)).getD []), none) := by
  show ((compareScan ignoreTTL (outcomes.filterMap id) [] true).1, none) = _
  rw [compareScan_fst]

/-! ### UDP resolver connection deadline -/

/-- Connection-deadline selection in `udpResolver.ResolveType`: the context
deadline when one is set, otherwise `now + timeout`.  Instants are seconds
as `Int`. -/
def connDeadline (now : Int) (ctxDeadline : Option Int) (timeout : Int) : Int :=
  match ctxDeadline with
  | some d => d
  | none => now + timeout

/-- Modelled from the spec for refinement comparison: the deadline the spec
prescribes, `min(ctx.deadline, now + defaultTimeout)` when a context deadline
is present. -/
def connDeadlineSpec (now : Int) (ctxDeadline : Option Int) (timeout : Int) : Int :=
  match ctxDeadline with
  | some d => min d (now + timeout)
  | none => now + timeout

/-- **C2 (counterexample).** With a context deadline 10 s away and a 2 s
default timeout, the code sets the connection deadline to the context
deadline (10), not to the spec's minimum (2). -/
theorem connDeadline_counterexample :
    connDeadline 0 (some 10) 2 = 10
    ∧ connDeadlineSpec 0 (some 10) 2 = 2
    ∧ connDeadline 0 (some 10) 2 ≠ connDeadlineSpec 0 (some 10) 2 := by
  refine ⟨rfl, rfl, ?_⟩
  decide

/-- **C2 (amended).** When the context carries a deadline the connection
deadline is set to that deadline itself; when it carries none it is set to
now plus the default per-query timeout. -/
theorem connDeadline_characterisation (now d timeout : Int) :
    connDeadline now (some d) timeout = d
    ∧ connDeadline now none timeout = now + timeout :=
  ⟨rfl, rfl⟩

/-! ### Consensus strategy -/

/-- A group of equal responses with its agreement count (Consensus source). -/
structure ResultGroup where
  records : List Record
  count : Nat
  deriving DecidableEq

/-- Inner grouping loop of `Consensus.ResolveType`: bump the first group whose
records compare equal, else append a fresh group. -/
def addToGroups (ignoreTTL : Bool) (records : List Record) :
    List ResultGroup → List ResultGroup
  | [] => [{ records := records, count := 1 }]
  | g :: gs =>
    if recordsEqual g.records records ignoreTTL then
      { records := g.records, count := g.count + 1 } :: gs
    else g :: addToGroups ignoreTTL records gs

/-- Grouping of the successful responses of `Consensus.ResolveType`, in
resolver iteration order. -/
def consensusGroups (ignoreTTL : Bool)
    (outcomes : List (Option (List Record))) : List ResultGroup :=
  outcomes.foldl
    (fun gs o => match o with
      | none => gs
      | some records => addToGroups ignoreTTL records gs) []

/-- `Consensus.ResolveType` over the per-resolver outcomes (one entry per
configured resolver; `none` = error).  `minAgreement` is the Go `int`
configuration value. -/
def consensusResolveType (minAgreement : Int) (ignoreTTL : Bool)
    (outcomes : List (Option (List Record))) : List Record × Option String :=
  let m : Int := if minAgreement ≤ 0 then (outcomes.length : Int) / 2 + 1
                 else minAgreement
  let gs := consensusGroups ignoreTTL outcomes
  match gs.find? (fun g => m ≤ (g.count : Int)) with
  | some g => (g.records, none)
  | none => ([], some ("consensus not reached: required "
      ++ toString m ++ " agreements"))

/-- **C4.** With `MinAgreement ≤ 0` the effective threshold is
`⌊n/2⌋ + 1` over the configured resolver count `n`, and when no equality
group of successful responses reaches it, the result is nil records with the
"consensus not reached: required N agreements" error at that threshold. -/
theorem consensus_majority_default_and_error (minAgreement : Int)
    (ignoreTTL : Bool) (outcomes : List (Option (List Record)))
    (hm : minAgreement ≤ 0)
    (hall : ∀ g ∈ consensusGroups ignoreTTL outcomes,
      (g.count : Int) < (outcomes.length : Int) / 2 + 1) :
    consensusResolveType minAgreement ignoreTTL outcomes
      = ([], some ("consensus not reached: required "
          ++ toString ((outcomes.length : Int) / 2 + 1) ++ " agreements")) := by
  unfold consensusResolveType
  simp only [hm, if_true]
  have hnone : (consensusGroups ignoreTTL outcomes).find?
      (fun g => decide (((outcomes.length : Int) / 2 + 1) ≤ (g.count : Int))) = none := by
    rw [List.find?_eq_none]
    intro g hg
    simpa using not_le.mpr (hall g hg)
  rw [hnone]

/-- **C4 (witness).** Three resolvers, two distinct answers and one failure:
threshold defaults to 2, no group reaches it, and the error names 2. -/
theorem consensus_majority_default_and_error_witness :
    consensusResolveType 0 false
        [some [{ type := 1, value := "1.1.1.1", ttl := 300 }],
         some [{ type := 1, value := "2.2.2.2", ttl := 300 }],
         none]
      = ([], some ("consensus not reached: required "
          ++ toString ((3 : Int) / 2 + 1) ++ " agreements")) :=
  consensus_majority_default_and_error 0 false
    [some [{ type := 1, value := "1.1.1.1", ttl := 300 }],
     some [{ type := 1, value := "2.2.2.2", ttl := 300 }],
     none]
    (by decide) (by decide)

/-! ### IP addresses

`net.ParseIP` only ever yields valid 4-byte or 16-byte addresses, so a parsed
IP is either IPv4 (`To4() ≠ nil`) or IPv6 (`To4() = nil`, `To16() ≠ nil`);
the presentation string is carried along. -/

/-- A parsed IP address. -/
inductive IP where
  | v4 (s : String)
  | v6 (s : String)
  deriving DecidableEq

/-- Go `ip.To4() != nil`. -/
def IP.isV4 : IP → Bool
  | .v4 _ => true
  | .v6 _ => false

/-- Go `ip.To16() != nil`: true for every valid parsed IP. -/
def IP.hasTo16 : IP → Bool
  | _ => true

/-! ### TTL-aware cache (cache.go)

The LRU store is modelled as an association list keyed by host; LRU capacity
eviction and the library's own TTL sweep are outside the model (the claims
condition on the entry still being present / read before eviction). -/

/-- Cached IPs with their absolute expiry instant. -/
structure ipCacheEntry where
  ips : List IP
  expiresAt : Int
  deriving DecidableEq

/-- `ipCacheEntry.isExpired` at instant `now`: Go
`time.Now().After(e.expiresAt)`, i.e. strictly after. -/
def ipCacheEntry.isExpired (e : ipCacheEntry) (now : Int) : Bool :=
  e.expiresAt < now

/-- The dnsCache state. -/
structure dnsCache where
  enabled : Bool
  minTTL : Int
  maxTTL : Int
  store : List (String × ipCacheEntry)
  deriving DecidableEq

/-- `lru.Get` on the modelled store. -/
def lookupStore (store : List (String × ipCacheEntry)) (host : String) :
    Option ipCacheEntry :=
  match store.find? (fun p => p.1 = host) with
  | some p => some p.2
  | none => none

/-- `dnsCache.getIPs` at read instant `now`: nil when disabled, missing or
expired; otherwise a (defensive copy of) the stored IP list. -/
def getIPs (c : dnsCache) (now : Int) (host : String) : Option (List IP) :=
  if !c.enabled then none
  else
    match lookupStore c.store host with
    | none => none
    | some e => if e.isExpired now then none else some e.ips

/-- The TTL clamp of `dnsCache.setIPs`: raise below `minTTL`, then cap above
`maxTTL`. -/
def clampTTL (minTTL maxTTL ttl : Int) : Int :=
  let t1 := if ttl < minTTL then minTTL else ttl
  if maxTTL < t1 then maxTTL else t1

/-- `dnsCache.setIPs` at write instant `now`: no-op when disabled or the IP
list is empty, otherwise store the entry expiring at `now + clamp(ttl)`
(`lru.Add` replaces any entry under the same host). -/
def setIPs (c : dnsCache) (now : Int) (host : String) (ips : List IP)
    (ttl : Int) : dnsCache :=
  if !c.enabled ∨ ips = [] then c
  else
    { c with store :=
        (host, { ips := ips, expiresAt := now + clampTTL c.minTTL c.maxTTL ttl })
          :: c.store.filter (fun p => p.1 ≠ host) }

/-- **C5 (counterexample).** At the expiry boundary `expiresAt = now` the
code returns the entry (Go `After` is strict), while the claim demands nil
whenever `expiresAt ≤ now`. -/
theorem getIPs_expiry_boundary_counterexample :
    getIPs
        { enabled := true, minTTL := 0, maxTTL := 100,
          store := [("h", { ips := [IP.v4 "1.2.3.4"], expiresAt := 5 })] }
        5 "h"
      = some [IP.v4 "1.2.3.4"]
    ∧ (5 : Int) ≤ 5 := by
  constructor
  · rfl
  · decide

/-- **C5 (amended).** For every enabled cache and host, `getIPs` returns nil
whenever the stored entry's `expiresAt` is strictly less than the read
instant, and every non-nil return carries the stored IP list of an entry with
`expiresAt ≥` the read instant. -/
theorem getIPs_expiry_invariant (c : dnsCache) (now : Int) (host : String) :
    (∀ e, lookupStore c.store host = some e → e.expiresAt < now →
      getIPs c now host = none)
    ∧ (∀ ips, getIPs c now host = some ips →
      ∃ e, lookupStore c.store host = some e ∧ now ≤ e.expiresAt ∧ ips = e.ips) := by
  constructor
  · intro e he hlt
    unfold getIPs
    rcases hb : c.enabled with _ | _
    · simp
    · simp only [hb, Bool.not_true, Bool.false_eq_true, if_false, he]
      simp [ipCacheEntry.isExpired, hlt]
  · intro ips hips
    unfold getIPs at hips
    rcases hb : c.enabled with _ | _
    · simp [hb] at hips
    · simp only [hb, Bool.not_true, Bool.false_eq_true, if_false] at hips
      rcases hl : lookupStore c.store host with _ | e
      · rw [hl] at hips; cases hips
      · rw [hl] at hips
        by_cases hex : e.isExpired now
        · simp [hex] at hips
        · simp only [hex, Bool.false_eq_true, if_false, Option.some.injEq] at hips
          refine ⟨e, rfl, ?_, hips.symm⟩
          simpa [ipCacheEntry.isExpired] using hex

/-- **C5 (witness).** A concrete strictly-expired entry yields nil. -/
theorem getIPs_expiry_invariant_witness :
    getIPs
        { enabled := true, minTTL := 0, maxTTL := 100,
          store := [("h", { ips := [IP.v4 "1.2.3.4"], expiresAt := 5 })] }
        10 "h"
      = none :=
  (getIPs_expiry_invariant
      { enabled := true, minTTL := 0, maxTTL := 100,
        store := [("h", { ips := [IP.v4 "1.2.3.4"], expiresAt := 5 })] }
      10 "h").1
    { ips := [IP.v4 "1.2.3.4"], expiresAt := 5 } rfl (by decide)

/-- **C6.** On an enabled cache with a non-empty IP list, `setIPs` stores the
entry with TTL `clamp(t) ∈ [minTTL, maxTTL]` expiring at `now + clamp(t)`;
a read at or before that instant (with the entry still present, i.e. before
any eviction) returns the stored IPs, and a later read returns nil. -/
theorem setIPs_then_getIPs (c : dnsCache) (now r : Int) (host : String)
    (ips : List IP) (ttl : Int)
    (hen : c.enabled = true) (hne : ips ≠ []) (hb : c.minTTL ≤ c.maxTTL) :
    lookupStore (setIPs c now host ips ttl).store host
      = some { ips := ips, expiresAt := now + clampTTL c.minTTL c.maxTTL ttl }
    ∧ c.minTTL ≤ clampTTL c.minTTL c.maxTTL ttl
    ∧ clampTTL c.minTTL c.maxTTL ttl ≤ c.maxTTL
    ∧ (r ≤ now + clampTTL c.minTTL c.maxTTL ttl →
        getIPs (setIPs c now host ips ttl) r host = some ips)
    ∧ (now + clampTTL c.minTTL c.maxTTL ttl < r →
        getIPs (setIPs c now host ips ttl) r host = none) := by
  have hset : setIPs c now host ips ttl
      = { c with store :=
          (host, { ips := ips, expiresAt := now + clampTTL c.minTTL c.maxTTL ttl })
            :: c.store.filter (fun p => p.1 ≠ host) } := by
    unfold setIPs
    simp [hen, hne]
  have hlook : lookupStore (setIPs c now host ips ttl).store host
      = some { ips := ips, expiresAt := now + clampTTL c.minTTL c.maxTTL ttl } := by
    rw [hset]
    simp [lookupStore, List.find?]
  have hclamp : c.minTTL ≤ clampTTL c.minTTL c.maxTTL ttl
      ∧ clampTTL c.minTTL c.maxTTL ttl ≤ c.maxTTL := by
    unfold clampTTL
    dsimp only
    split_ifs <;> omega
  refine ⟨hlook, hclamp.1, hclamp.2, ?_, ?_⟩
  · intro hr
    unfold getIPs
    rw [hlook]
    have hen2 : (setIPs c now host ips ttl).enabled = true := by rw [hset]; exact hen
    simp only [hen2, Bool.not_true, Bool.false_eq_true, if_false]
    have : ({ ips := ips, expiresAt := now + clampTTL c.minTTL c.maxTTL ttl }
        : ipCacheEntry).isExpired r = false := by
      simp [ipCacheEntry.isExpired]
      omega
    simp [this]
  · intro hr
    unfold getIPs
    rw [hlook]
    have hen2 : (setIPs c now host ips ttl).enabled = true := by rw [hset]; exact hen
    simp only [hen2, Bool.not_true, Bool.false_eq_true, if_false]
    have : ({ ips := ips, expiresAt := now + clampTTL c.minTTL c.maxTTL ttl }
        : ipCacheEntry).isExpired r = true := by
      simp [ipCacheEntry.isExpired]
      omega
    simp [this]

/-- **C6 (witness).** Writing a 50 s TTL into an enabled `[1, 100]` cache
stores expiry `now + 50`, readable at `now + 50` and gone at `now + 51`. -/
theorem setIPs_then_getIPs_witness :
    lookupStore
        (setIPs { enabled := true, minTTL := 1, maxTTL := 100, store := [] }
          0 "h" [IP.v4 "1.2.3.4"] 50).store "h"
      = some { ips := [IP.v4 "1.2.3.4"], expiresAt := 0 + clampTTL 1 100 50 }
    ∧ (1 : Int) ≤ clampTTL 1 100 50
    ∧ clampTTL 1 100 50 ≤ 100
    ∧ ((50 : Int) ≤ 0 + clampTTL 1 100 50 →
        getIPs (setIPs { enabled := true, minTTL := 1, maxTTL := 100, store := [] }
          0 "h" [IP.v4 "1.2.3.4"] 50) 50 "h" = some [IP.v4 "1.2.3.4"])
    ∧ (0 + clampTTL 1 100 50 < (51 : Int) →
        getIPs (setIPs { enabled := true, minTTL := 1, maxTTL := 100, store := [] }
          0 "h" [IP.v4 "1.2.3.4"] 50) 51 "h" = none) := by
  have h1 := setIPs_then_getIPs
    { enabled := true, minTTL := 1, maxTTL := 100, store := [] }
    0 50 "h" [IP.v4 "1.2.3.4"] 50 rfl (by intro h; cases h) (by decide)
  have h2 := setIPs_then_getIPs
    { enabled := true, minTTL := 1, maxTTL := 100, store := [] }
    0 51 "h" [IP.v4 "1.2.3.4"] 50 rfl (by intro h; cases h) (by decide)
  exact ⟨h1.1, h1.2.1, h1.2.2.1, fun hr => h1.2.2.2.1 hr, fun hr => h2.2.2.2.2 hr⟩

/-! ### Race and Fallback strategies -/

/-- One resolver result: records and the Go error. -/
structure ResolveResult where
  records : List Record
  err : Option String
  deriving DecidableEq

/-- The consumption loop of `Race.ResolveType` over the results in channel
arrival order, threading `lastErr`: first success wins, otherwise the last
error is returned with nil records. -/
def raceConsume : List ResolveResult → Option String → List Record × Option String
  | [], lastErr => ([], lastErr)
  | r :: rest, _ =>
    match r.err with
    | none => (r.records, none)
    | some e => raceConsume rest (some e)

/-- `Race.ResolveType` as a function of the arrival-ordered results (one per
configured resolver; empty for an empty resolver list). -/
def raceResolveType (arrivals : List ResolveResult) : List Record × Option String :=
  raceConsume arrivals none

/-- The loop of `Fallback.ResolveType`, threading `lastErr`. -/
def fallbackGo : List ResolveResult → Option String → List Record × Option String
  | [], lastErr => ([], lastErr)
  | r :: rest, _ =>
    match r.err with
    | none => (r.records, none)
    | some e => fallbackGo rest (some e)

/-- `Fallback.ResolveType` over the sequential per-resolver results: first
success wins, otherwise nil records with the last error (`lastErr` starts
nil). -/
def fallbackResolveType (results : List ResolveResult) :
    List Record × Option String :=
  fallbackGo results none

/-- **C9.** On an empty resolver list both `Race.ResolveType` and
`Fallback.ResolveType` return nil records together with a nil error: success
with no records. -/
theorem race_fallback_empty_resolvers :
    raceResolveType [] = ([], none) ∧ fallbackResolveType [] = ([], none) :=
  ⟨rfl, rfl⟩

/-! ### Lookup pipeline (resolver.go) -/

/-- `Dialer.lookup` merge over the per-type strategy outcomes in channel
arrival order (`none` = per-type error, logged and skipped): concatenation of
the successful per-type record sets, always with a nil error. -/
def dialerLookup (outcomes : List (Option (List Record))) :
    List Record × Option String :=
  (outcomes.foldl
    (fun acc o => match o with
      | none => acc
      | some rs => acc ++ rs) [], none)

/-- One step of IP extraction in `Dialer.lookupIPs`: A/AAAA records whose
value parses contribute their IP and lower the running minimum TTL.
`parseIP` models `net.ParseIP` (`none` = nil). -/
def extractStep (parseIP : String → Option IP) (st : List IP × Nat)
    (r : Record) : List IP × Nat :=
  if r.type = TypeA ∨ r.type = TypeAAAA then
    match parseIP r.value with
    | some ip => (st.1 ++ [ip], if r.ttl < st.2 then r.ttl else st.2)
    | none => st
  else st

/-- The extraction loop of `Dialer.lookupIPs`: collected IPs and minimum TTL,
starting from the 300-second default. -/
def extractIPs (parseIP : String → Option IP) (records : List Record) :
    List IP × Nat :=
  records.foldl (extractStep parseIP) ([], 300)

/-- `Dialer.lookupIPs` on the resolution path: cache result, then lookup
outcomes, then extraction; returns the IPs, the Go error, and the TTL (in
seconds) passed to `cache.setIPs` (`none` when no cache write happens). -/
def dialerLookupIPs (parseIP : String → Option IP)
    (cached : Option (List IP)) (host : String)
    (outcomes : List (Option (List Record))) :
    (List IP × Option String) × Option Nat :=
  match cached with
  | some ips => ((ips, none), none)
  | none =>
    match (dialerLookup outcomes).2 with
    | some e => (([], some e), none)
    | none =>
      let ex := extractIPs parseIP (dialerLookup outcomes).1
      if ex.1 = [] then
        (([], some ("no IP addresses found for " ++ host)), none)
      else ((ex.1, none), some ex.2)

/-- The IPs contributed by a record list: A/AAAA records with parsable
values, in order. -/
def parsedIPsOf (parseIP : String → Option IP) (records : List Record) :
    List IP :=
  records.filterMap
    (fun r => if r.type = TypeA ∨ r.type = TypeAAAA then parseIP r.value else none)

/-- The TTLs of the parsed A/AAAA records. -/
def parsedTTLsOf (parseIP : String → Option IP) (records : List Record) :
    List Nat :=
  records.filterMap
    (fun r => if (r.type = TypeA ∨ r.type = TypeAAAA) ∧ (parseIP r.value).isSome
      then some r.ttl else none)

lemma extract_foldl_aux (parseIP : String → Option IP) (records : List Record) :
    ∀ (acc : List IP) (m : Nat),
      records.foldl (extractStep parseIP) (acc, m)
        = (acc ++ parsedIPsOf parseIP records,
           (parsedTTLsOf parseIP records).foldl min m) := by
  induction records with
  | nil => intro acc m; simp [parsedIPsOf, parsedTTLsOf]
  | cons r rs ih =>
    intro acc m
    rw [List.foldl_cons]
    by_cases ht : r.type = TypeA ∨ r.type = TypeAAAA
    · rcases hp : parseIP r.value with _ | ip
      · have hstep : extractStep parseIP (acc, m) r = (acc, m) := by
          simp [extractStep, ht, hp]
        rw [hstep, ih]
        have hip : parsedIPsOf parseIP (r :: rs) = parsedIPsOf parseIP rs := by
          simp [parsedIPsOf, List.filterMap_cons, ht, hp]
        have httl : parsedTTLsOf parseIP (r :: rs) = parsedTTLsOf parseIP rs := by
          simp [parsedTTLsOf, List.filterMap_cons, ht, hp]
        rw [hip, httl]
      · have hstep : extractStep parseIP (acc, m) r
            = (acc ++ [ip], if r.ttl < m then r.ttl else m) := by
          simp [extractStep, ht, hp]
        rw [hstep, ih]
        have hip : parsedIPsOf parseIP (r :: rs) = ip :: parsedIPsOf parseIP rs := by
          simp [parsedIPsOf, List.filterMap_cons, ht, hp]
        have httl : parsedTTLsOf parseIP (r :: rs) = r.ttl :: parsedTTLsOf parseIP rs := by
          simp [parsedTTLsOf, List.filterMap_cons, ht, hp]
        rw [hip, httl]
        have hmin : (if r.ttl < m then r.ttl else m) = min m r.ttl := by
          rcases Nat.lt_or_ge r.ttl m with h | h
          · simp [h, Nat.le_of_lt h, Nat.min_eq_right (Nat.le_of_lt h)]
          · have : ¬ r.ttl < m := Nat.not_lt.mpr h
            simp [this, Nat.min_eq_left h]
        rw [List.foldl_cons, hmin]
        simp
    · have hstep : extractStep parseIP (acc, m) r = (acc, m) := by
        simp [extractStep, ht]
      rw [hstep, ih]
      have hip : parsedIPsOf parseIP (r :: rs) = parsedIPsOf parseIP rs := by
        simp [parsedIPsOf, List.filterMap_cons, ht]
      have httl : parsedTTLsOf parseIP (r :: rs) = parsedTTLsOf parseIP rs := by
        simp only [parsedTTLsOf, List.filterMap_cons]
        have : ¬ ((r.type = TypeA ∨ r.type = TypeAAAA) ∧ (parseIP r.value).isSome) :=
          fun h => ht h.1
        simp [this]
      rw [hip, httl]

lemma extractIPs_eq (parseIP : String → Option IP) (records : List Record) :
    extractIPs parseIP records
      = (parsedIPsOf parseIP records,
         (parsedTTLsOf parseIP records).foldl min 300) := by
  have h := extract_foldl_aux parseIP records [] 300
  simpa [extractIPs] using h

lemma parsedIPsOf_eq_nil_iff (parseIP : String → Option IP)
    (records : List Record) :
    parsedIPsOf parseIP records = []
      ↔ ∀ r ∈ records, (r.type = TypeA ∨ r.type = TypeAAAA) →
          parseIP r.value = none := by
  rw [parsedIPsOf, List.filterMap_eq_nil_iff]
  constructor
  · intro h r hr ht
    have := h r hr
    simpa [ht] using this
  · intro h r hr
    by_cases ht : r.type = TypeA ∨ r.type = TypeAAAA
    · simp [ht, h r hr ht]
    · simp [ht]

/-- **C7.** `Dialer.lookup` always returns a nil error together with the
concatenation of the successful per-type results, and `Dialer.lookupIPs`
(on the resolution path, i.e. with a cache miss) errors exactly when the
merged records contain no parsable A or AAAA value, the error naming
"no IP addresses found". -/
theorem lookup_never_errors_lookupIPs_errors_iff
    (parseIP : String → Option IP) (host : String)
    (outcomes : List (Option (List Record))) :
    (dialerLookup outcomes).2 = none
    ∧ (dialerLookup outcomes).1 = (outcomes.filterMap id).flatten
    ∧ ((dialerLookupIPs parseIP none host outcomes).1.2
          = some ("no IP addresses found for " ++ host)
        ↔ ∀ r ∈ (dialerLookup outcomes).1,
            (r.type = TypeA ∨ r.type = TypeAAAA) → parseIP r.value = none)
    ∧ ((dialerLookupIPs parseIP none host outcomes).1.2 = none
        ∨ (dialerLookupIPs parseIP none host outcomes).1.2
            = some ("no IP addresses found for " ++ host)) := by
  have hmerge : ∀ (acc : List (Option (List Record))) (init : List Record),
      acc.foldl (fun a o => match o with
        | none => a
        | some rs => a ++ rs) init = init ++ (acc.filterMap id).flatten := by
    intro acc
    induction acc with
    | nil => intro init; simp
    | cons o os ih =>
      intro init
      rcases o with _ | rs
      · simpa using ih init
      · rw [List.foldl_cons]
        simpa [List.append_assoc] using ih (init ++ rs)
  have hsnd : (dialerLookup outcomes).2 = none := rfl
  have hfst : (dialerLookup outcomes).1 = (outcomes.filterMap id).flatten := by
    simpa [dialerLookup] using hmerge outcomes []
  refine ⟨hsnd, hfst, ?_, ?_⟩
  · unfold dialerLookupIPs
    rw [hsnd]
    by_cases hnil : (extractIPs parseIP (dialerLookup outcomes).1).1 = []
    · simp only [hnil, if_true, true_iff, Option.some.injEq]
      rw [extractIPs_eq] at hnil
      exact (parsedIPsOf_eq_nil_iff parseIP (dialerLookup outcomes).1).mp
        (by simpa using hnil)
    · simp only [hnil, if_false]
      constructor
      · intro h; cases h
      · intro h
        rw [extractIPs_eq] at hnil
        exact absurd ((parsedIPsOf_eq_nil_iff parseIP (dialerLookup outcomes).1).mpr h) hnil
  · unfold dialerLookupIPs
    rw [hsnd]
    by_cases hnil : (extractIPs parseIP (dialerLookup outcomes).1).1 = []
    · simp [hnil]
    · simp [hnil]

/-- **C10.** The TTL handed to `cache.setIPs` by `Dialer.lookupIPs` is the
minimum of 300 and the TTLs of the parsed A/AAAA records; in particular it is
300 whenever every parsed record's TTL exceeds 300. -/
theorem lookupIPs_cached_ttl_min (parseIP : String → Option IP) (host : String)
    (outcomes : List (Option (List Record)))
    (hw : (dialerLookupIPs parseIP none host outcomes).2 ≠ none) :
    (dialerLookupIPs parseIP none host outcomes).2
      = some ((parsedTTLsOf parseIP (dialerLookup outcomes).1).foldl min 300)
    ∧ ((∀ t ∈ parsedTTLsOf parseIP (dialerLookup outcomes).1, 300 < t) →
        (dialerLookupIPs parseIP none host outcomes).2 = some 300) := by
  have hsnd : (dialerLookup outcomes).2 = none := rfl
  by_cases hnil : (extractIPs parseIP (dialerLookup outcomes).1).1 = []
  · exfalso
    apply hw
    unfold dialerLookupIPs
    rw [hsnd]
    simp [hnil]
  · have hval : (dialerLookupIPs parseIP none host outcomes).2
        = some ((parsedTTLsOf parseIP (dialerLookup outcomes).1).foldl min 300) := by
      unfold dialerLookupIPs
      rw [hsnd]
      simp only [hnil, if_false]
      rw [extractIPs_eq]
    refine ⟨hval, ?_⟩
    intro hbig
    rw [hval]
    have h300 : ∀ (ts : List Nat), (∀ t ∈ ts, 300 ≤ t) →
        ts.foldl min 300 = 300 := by
      intro ts
      induction ts with
      | nil => intro _; rfl
      | cons t ts ih =>
        intro h
        rw [List.foldl_cons, Nat.min_eq_left (h t (by simp))]
        exact ih (fun u hu => h u (by simp [hu]))
    rw [h300 _ (fun t ht => Nat.le_of_lt (hbig t ht))]

/-- **C10 (witness).** One parsed A record with TTL 600: the cache write TTL
is `min(300, 600) = 300`. -/
theorem lookupIPs_cached_ttl_min_witness :
    (dialerLookupIPs
        (fun s => if s = "1.2.3.4" then some (IP.v4 "1.2.3.4") else none)
        none "example.com" [some [{ type := 1, value := "1.2.3.4", ttl := 600 }]]).2
      = some ((parsedTTLsOf
          (fun s => if s = "1.2.3.4" then some (IP.v4 "1.2.3.4") else none)
          (dialerLookup [some [{ type := 1, value := "1.2.3.4", ttl := 600 }]]).1).foldl
            min 300) :=
  (lookupIPs_cached_ttl_min
    (fun s => if s = "1.2.3.4" then some (IP.v4 "1.2.3.4") else none)
    "example.com" [some [{ type := 1, value := "1.2.3.4", ttl := 600 }]]
    (by decide)).1

/-! ### Dial pipeline address-family filter (Dialer.DialContext) -/

/-- The network switch of `Dialer.DialContext`: `tcp4`/`udp4` keep IPv4,
`tcp6`/`udp6` keep non-IPv4 valid-16-byte addresses, and the default keeps
IPv4 first, then IPv6. -/
def filterIPsForNetwork (network : String) (ips : List IP) : List IP :=
  if network = "tcp4" ∨ network = "udp4" then
    ips.filter IP.isV4
  else if network = "tcp6" ∨ network = "udp6" then
    ips.filter (fun ip => !ip.isV4 && ip.hasTo16)
  else
    ips.filter IP.isV4 ++ ips.filter (fun ip => !ip.isV4 && ip.hasTo16)

/-- The filter-and-check part of `Dialer.DialContext` after resolution:
error when the filtered candidate set is empty. -/
def dialCandidates (host network : String) (ips : List IP) :
    Except String (List IP) :=
  let filtered := filterIPsForNetwork network ips
  if filtered = [] then
    .error ("no suitable IP addresses found for " ++ host
      ++ " (network: " ++ network ++ ")")
  else .ok filtered

/-- **C8.** `DialContext` keeps exactly the IPv4 addresses for `tcp4`/`udp4`,
exactly the non-IPv4 addresses for `tcp6`/`udp6`, and for `tcp`/`udp` a
permutation of all addresses split as IPv4 candidates followed by IPv6
candidates; an empty filtered set yields the
"no suitable IP addresses found for host (network: net)" error. -/
theorem dialContext_network_filter (host network : String) (ips : List IP) :
    filterIPsForNetwork "tcp4" ips = ips.filter IP.isV4
    ∧ filterIPsForNetwork "udp4" ips = ips.filter IP.isV4
    ∧ filterIPsForNetwork "tcp6" ips = ips.filter (fun ip => !ip.isV4)
    ∧ filterIPsForNetwork "udp6" ips = ips.filter (fun ip => !ip.isV4)
    ∧ (filterIPsForNetwork "tcp" ips).Perm ips
    ∧ (filterIPsForNetwork "udp" ips).Perm ips
    ∧ filterIPsForNetwork "tcp" ips
        = ips.filter IP.isV4 ++ ips.filter (fun ip => !ip.isV4)
    ∧ filterIPsForNetwork "udp" ips
        = ips.filter IP.isV4 ++ ips.filter (fun ip => !ip.isV4)
    ∧ (filterIPsForNetwork network ips = [] →
        dialCandidates host network ips
          = .error ("no suitable IP addresses found for " ++ host
              ++ " (network: " ++ network ++ ")")) := by
  have hto16 : ∀ ip : IP, (!ip.isV4 && ip.hasTo16) = (!ip.isV4) := by
    intro ip
    simp [IP.hasTo16]
  have hsplit : ∀ l : List IP,
      (l.filter IP.isV4 ++ l.filter (fun ip => !ip.isV4)).Perm l := by
    intro l
    exact List.filter_append_perm IP.isV4 l
  have h6 : ∀ l : List IP,
      l.filter (fun ip => !ip.isV4 && ip.hasTo16)
        = l.filter (fun ip => !ip.isV4) := by
    intro l
    apply List.filter_congr
    intro ip _
    exact hto16 ip
  have htcp : filterIPsForNetwork "tcp" ips
      = ips.filter IP.isV4 ++ ips.filter (fun ip => !ip.isV4) := by
    unfold filterIPsForNetwork
    rw [if_neg (by decide), if_neg (by decide), h6]
  have hudp : filterIPsForNetwork "udp" ips
      = ips.filter IP.isV4 ++ ips.filter (fun ip => !ip.isV4) := by
    unfold filterIPsForNetwork
    rw [if_neg (by decide), if_neg (by decide), h6]
  refine ⟨?_, ?_, ?_, ?_, ?_, ?_, htcp, hudp, ?_⟩
  · unfold filterIPsForNetwork
    rw [if_pos (by decide)]
  · unfold filterIPsForNetwork
    rw [if_pos (by decide)]
  · unfold filterIPsForNetwork
    rw [if_neg (by decide), if_pos (by decide), h6]
  · unfold filterIPsForNetwork
    rw [if_neg (by decide), if_pos (by decide), h6]
  · rw [htcp]; exact hsplit ips
  · rw [hudp]; exact hsplit ips
  · intro hempty
    unfold dialCandidates
    simp [hempty]

/-- **C8 (witness).** A single IPv6 address filtered for `tcp4` is empty and
produces the error naming host and network. -/
theorem dialContext_network_filter_witness :
    dialCandidates "example.com" "tcp4" [IP.v6 "::1"]
      = .error ("no suitable IP addresses found for " ++ "example.com"
          ++ " (network: " ++ "tcp4" ++ ")") :=
  (dialContext_network_filter "example.com" "tcp4" [IP.v6 "::1"]).2.2.2.2.2.2.2.2
    (by decide)

end Dnsdialer
